import Mathlib

/-!
Shallow embedding of `@softwareventures/format-time` (src/index.ts).

The library converts a time-of-day value `{hours, minutes, seconds}` (numeric
fields, `seconds` possibly fractional) to strings.  JavaScript numbers are
modelled as rationals (`ℚ`); JavaScript strings as Lean `String`
(a wrapper around `List Char` in this toolchain).

JavaScript primitives used by the source are modelled as follows:
  * `String(x)` for a number `x`      → `numToString` (decimal rendering:
    sign, integer digits, and — when the fractional part is nonzero —
    a `"."` followed by the digits of the finite decimal expansion;
    JavaScript numbers are binary fractions, so their expansions are finite);
  * `s.padStart(n, "0")`              → `padStart`;
  * `s.substring(0, 2)`/`s.substring(2)` → `List.take 2`/`List.drop 2` on the
    character data;
  * `x % y` (JS remainder, truncating) → `jsMod`;
  * `Math.floor`                       → `mathFloor`;
  * `s.replace(/^\d+/u, f)` (used by `seconds2`) → replace the maximal leading
    digit run (when non-empty) by its image under `f`;
  * `concatMap(texts, (text, i) => [text, formatters[i]?.(time)]).join("")`
    → `flatMapIdx` + `optCall` + `joinAll`; `Array.join` renders the
    `undefined` produced by `formatters[i]?.(…)` as `""`, which `optCall`
    bakes in.

The option fields `format`/`round` are `"basic" | "extended"` resp.
`"none" | "seconds" | "ms"` in the TypeScript type; they are embedded as
`Option String` so that the runtime behaviour on out-of-enum values (which
the type system normally rules out) is expressible.  The object lookups
`{basic: …, extended: …}[key]` are embedded as equality chains returning
`Option TimeFormatter`, `none` playing the role of `undefined`.
-/

namespace FormatTime

/-- JS truncation toward zero of a rational (`Math.trunc`, and the rounding
used by the JS `%` operator). -/
def truncQ (q : ℚ) : ℤ := if q < 0 then ⌈q⌉ else ⌊q⌋

/-- The JS remainder operator `a % b`: `a - b * trunc (a / b)`. -/
def jsMod (a b : ℚ) : ℚ := a - b * truncQ (a / b)

/-- JS `Math.floor`, which returns a number. -/
def mathFloor (q : ℚ) : ℚ := (⌊q⌋ : ℤ)

/-- The character for a decimal digit `n ≤ 9` (code 48 + n). -/
def digitChar (n : ℕ) : Char := Char.ofNat (48 + n)

/-- Decimal digits of a natural number, most significant first.
`fuel` bounds the recursion; `fuel = n` is always enough. -/
def natReprAux : ℕ → ℕ → List Char
  | 0, _ => []
  | fuel + 1, n => if n = 0 then [] else natReprAux fuel (n / 10) ++ [digitChar (n % 10)]

/-- Decimal string of a natural number. -/
def natRepr (n : ℕ) : String := if n = 0 then "0" else ⟨natReprAux n n⟩

/-- Digits of the finite decimal expansion of a fraction `0 ≤ q < 1`.
`fuel` bounds the number of digits; for a fraction with a terminating
expansion, `fuel = q.den` is always enough. -/
def fracDigits : ℕ → ℚ → List Char
  | 0, _ => []
  | fuel + 1, q =>
    if q = 0 then []
    else digitChar (⌊q * 10⌋).toNat :: fracDigits fuel (q * 10 - ⌊q * 10⌋)

/-- Decimal string of a non-negative rational. -/
def numToStringNonneg (q : ℚ) : String :=
  let f := q - ⌊q⌋
  if f = 0 then natRepr (⌊q⌋).toNat
  else natRepr (⌊q⌋).toNat ++ "." ++ ⟨fracDigits f.den f⟩

/-- Model of JS `String(x)` for a number `x`: decimal rendering. -/
def numToString (q : ℚ) : String :=
  if q < 0 then "-" ++ numToStringNonneg (-q) else numToStringNonneg q

/-- JS `s.padStart(n, c)`: left-pad `s` with `c` to length at least `n`. -/
def padStart (s : String) (n : ℕ) (c : Char) : String :=
  ⟨List.replicate (n - s.data.length) c ++ s.data⟩

/-- JS `array.join("")` on an array of strings. -/
def joinAll (l : List String) : String := ⟨(l.map String.data).flatten⟩

/-- The time value consumed by the formatters: numeric `hours`, `minutes`,
`seconds` fields (`seconds` possibly fractional).  The upstream constructor
`time({…})` defaults omitted fields to zero, hence the defaults here. -/
structure Time where
  hours : ℚ := 0
  minutes : ℚ := 0
  seconds : ℚ := 0

/-- A function that formats a `Time` (or part of one) as a string. -/
def TimeFormatter : Type := Time → String

/-- Source expression `formatters[i]?.(time)` as rendered by `Array.join("")`: out-of-range
access or an `undefined` element contributes the empty string. -/
def optCall (formatters : List (Option TimeFormatter)) (i : ℕ) (time : Time) : String :=
  match formatters[i]? with
  | some (some f) => f time
  | _ => ""

/-- Index-passing flatMap, the shape of `concatMap(array, (x, i) => …)`. -/
def flatMapIdx (f : String → ℕ → List String) : List String → ℕ → List String
  | [], _ => []
  | x :: xs, i => f x i ++ flatMapIdx f xs (i + 1)

/-- Source function `timeTemplate(texts, ...formatters)`: returns a formatter that
concatenates `texts[0], formatters[0]?.(time), texts[1], …`. -/
def timeTemplate (texts : List String) (formatters : List (Option TimeFormatter)) :
    TimeFormatter :=
  fun time => joinAll (flatMapIdx (fun text i => [text, optCall formatters i time]) texts 0)

/-- Formatter `hours`: 24-hour numeric string, no padding. -/
def hours (time : Time) : String := numToString time.hours

/-- Formatter `hours2`: 2-digit 24-hour numeric string. -/
def hours2 (time : Time) : String := padStart (numToString time.hours) 2 '0'

/-- Formatter `hours12`: 12-hour numeric string, `String((12 + (time.hours % 12)) % 12)`. -/
def hours12 (time : Time) : String := numToString (jsMod (12 + jsMod time.hours 12) 12)

/-- Formatter `hours122`: 2-digit 12-hour numeric string. -/
def hours122 (time : Time) : String :=
  padStart (numToString (jsMod (12 + jsMod time.hours 12) 12)) 2 '0'

/-- Formatter `amPm`: `"AM"` if hours < 12, else `"PM"`. -/
def amPm (time : Time) : String := if time.hours < 12 then "AM" else "PM"

/-- Formatter `minutes`: numeric string, no padding. -/
def minutes (time : Time) : String := numToString time.minutes

/-- Formatter `minutes2`: 2-digit numeric string. -/
def minutes2 (time : Time) : String := padStart (numToString time.minutes) 2 '0'

/-- Formatter `seconds`: numeric string of the (possibly fractional) seconds. -/
def seconds (time : Time) : String := numToString time.seconds

/-- Formatter `seconds2`: `String(time.seconds).replace(/^\d+/u, s => s.padStart(2, "0"))` —
the maximal leading digit run, when non-empty, is left-padded to 2 characters. -/
def seconds2 (time : Time) : String :=
  let s := numToString time.seconds
  let ds := s.data.takeWhile Char.isDigit
  if ds = [] then s else ⟨(padStart ⟨ds⟩ 2 '0').data ++ s.data.drop ds.length⟩

/-- Formatter `floorSeconds`: `String(Math.floor(time.seconds))`. -/
def floorSeconds (time : Time) : String := numToString (mathFloor time.seconds)

/-- Formatter `floorSeconds2`: `String(Math.floor(time.seconds)).padStart(2, "0")`. -/
def floorSeconds2 (time : Time) : String :=
  padStart (numToString (mathFloor time.seconds)) 2 '0'

/-- Formatter `secondsMs`: `String(Math.floor(time.seconds * 1000)).padStart(5, "0")`,
split after the first two characters by `"."`. -/
def secondsMs (time : Time) : String :=
  let s := padStart (numToString (mathFloor (time.seconds * 1000))) 5 '0'
  ⟨s.data.take 2⟩ ++ "." ++ ⟨s.data.drop 2⟩

/-- Options for `iso8601`.  `format` and `round` are string enums in the
source (`"basic" | "extended"`, `"none" | "seconds" | "ms"`); embedding
them as `Option String` lets out-of-enum runtime values be expressed. -/
structure Iso8601Options where
  format : Option String := none
  round : Option String := none
  leadingT : Option Bool := none

/-- Factory `iso8601(options)`: builds the ISO 8601 formatter.  The object lookups
`{basic: …, extended: …}[options.format ?? "extended"]` and
`{none: …, seconds: …, ms: …}[options.round ?? "none"]` are embedded as
equality chains yielding `none` (JS `undefined`) on unknown keys. -/
def iso8601 (options : Iso8601Options := {}) : TimeFormatter :=
  let leading : TimeFormatter :=
    if options.leadingT.getD true then fun _ => "T" else fun _ => ""
  let separator : Option TimeFormatter :=
    if options.format.getD "extended" = "basic" then some fun _ => ""
    else if options.format.getD "extended" = "extended" then some fun _ => ":"
    else none
  let seconds : Option TimeFormatter :=
    if options.round.getD "none" = "none" then some seconds2
    else if options.round.getD "none" = "seconds" then some floorSeconds2
    else if options.round.getD "none" = "ms" then some secondsMs
    else none
  timeTemplate ["", "", "", "", "", "", ""]
    [some leading, some hours2, separator, some minutes2, separator, seconds]

/-- Constant `humanIso8601`: ISO 8601 extended, rounded down to whole seconds, no
leading `"T"`. -/
def humanIso8601 : TimeFormatter := iso8601 {round := some "seconds", leadingT := some false}


/-! ### String and list glue lemmas -/

theorem strData_append (a b : String) : (a ++ b).data = a.data ++ b.data := by
  cases a; cases b; rfl

theorem strData_mk (l : List Char) : (String.mk l).data = l := rfl

theorem joinAll_append (a b : List String) : joinAll (a ++ b) = joinAll a ++ joinAll b := by
  apply String.ext
  simp [joinAll, strData_append]

theorem joinAll_pair (a b : String) : joinAll [a, b] = a ++ b := by
  apply String.ext
  simp [joinAll, strData_append]

/-! ### Evaluation of `numToString` on integral rationals -/

theorem numToString_eq_natRepr (q : ℚ) (n : ℕ) (h : q = (n : ℚ)) :
    numToString q = natRepr n := by
  subst h
  have h0 : ¬ ((n : ℚ) < 0) := not_lt.mpr (by positivity)
  have hf : ⌊(n : ℚ)⌋ = (n : ℤ) := Int.floor_natCast n
  simp only [numToString, if_neg h0, numToStringNonneg, hf]
  simp

theorem numToString_eq_neg_natRepr (q : ℚ) (n : ℕ) (hn : 0 < n) (h : q = -(n : ℚ)) :
    numToString q = "-" ++ natRepr n := by
  subst h
  have h0 : -(n : ℚ) < 0 := by exact_mod_cast neg_neg_iff_pos.mpr (by exact_mod_cast hn)
  have hf : ⌊(n : ℚ)⌋ = (n : ℤ) := Int.floor_natCast n
  simp only [numToString, if_pos h0, neg_neg, numToStringNonneg, hf]
  simp

/-! ### Character classes: decimal renderings never contain a colon -/

theorem toNat_digitChar (n : ℕ) (h : n ≤ 9) : (digitChar n).toNat = 48 + n := by
  interval_cases n <;> decide

theorem mem_natReprAux {fuel n : ℕ} {c : Char} (h : c ∈ natReprAux fuel n) :
    48 ≤ c.toNat ∧ c.toNat ≤ 57 := by
  induction fuel generalizing n with
  | zero => simp [natReprAux] at h
  | succ fuel ih =>
    rw [natReprAux] at h
    split at h
    · simp at h
    · rcases List.mem_append.mp h with h' | h'
      · exact ih h'
      · have h9 : n % 10 ≤ 9 := by omega
        simp at h'
        subst h'
        rw [toNat_digitChar _ h9]
        omega

theorem mem_fracDigits {fuel : ℕ} {q : ℚ} {c : Char} (h0 : 0 ≤ q) (h1 : q < 1)
    (h : c ∈ fracDigits fuel q) : 48 ≤ c.toNat ∧ c.toNat ≤ 57 := by
  induction fuel generalizing q with
  | zero => simp [fracDigits] at h
  | succ fuel ih =>
    rw [fracDigits] at h
    split at h
    · simp at h
    · rcases List.mem_cons.mp h with h' | h'
      · have hge : (0 : ℤ) ≤ ⌊q * 10⌋ := Int.floor_nonneg.mpr (by positivity)
        have hlt : ⌊q * 10⌋ < 10 := Int.floor_lt.mpr (by push_cast; nlinarith)
        have h9 : (⌊q * 10⌋).toNat ≤ 9 := by omega
        subst h'
        rw [toNat_digitChar _ h9]
        omega
      · have hf0 : (0 : ℚ) ≤ q * 10 - ⌊q * 10⌋ := by
          have := Int.floor_le (q * 10); linarith
        have hf1 : q * 10 - ⌊q * 10⌋ < 1 := by
          have := Int.lt_floor_add_one (q * 10); linarith
        exact ih hf0 hf1 h'

theorem colon_not_mem_natRepr (n : ℕ) : ':' ∉ (natRepr n).data := by
  rw [natRepr]
  split
  · decide
  · intro h
    have h58 : (':').toNat = 58 := rfl
    have := mem_natReprAux (show (':') ∈ natReprAux n n from h)
    omega

theorem colon_not_mem_numToStringNonneg (q : ℚ) : ':' ∉ (numToStringNonneg q).data := by
  simp only [numToStringNonneg]
  split
  · exact colon_not_mem_natRepr _
  · rw [strData_append, strData_append]
    intro h
    rcases List.mem_append.mp h with h' | h'
    · rcases List.mem_append.mp h' with h'' | h''
      · exact colon_not_mem_natRepr _ h''
      · simp at h''
    · have hf0 : (0 : ℚ) ≤ q - ⌊q⌋ := by have := Int.floor_le q; linarith
      have hf1 : q - ⌊q⌋ < 1 := by have := Int.lt_floor_add_one q; linarith
      have h58 : (':').toNat = 58 := rfl
      have := mem_fracDigits hf0 hf1 (show (':') ∈ fracDigits _ _ from h')
      omega

theorem colon_not_mem_numToString (q : ℚ) : ':' ∉ (numToString q).data := by
  rw [numToString]
  split
  · rw [strData_append]
    intro h
    rcases List.mem_append.mp h with h' | h'
    · simp at h'
    · exact colon_not_mem_numToStringNonneg _ h'
  · exact colon_not_mem_numToStringNonneg _

theorem colon_not_mem_padStart (s : String) (n : ℕ) (h : ':' ∉ s.data) :
    ':' ∉ (padStart s n '0').data := by
  simp only [padStart, strData_mk]
  intro hc
  rcases List.mem_append.mp hc with h' | h'
  · rcases List.mem_replicate.mp h' with ⟨_, h''⟩
    simp at h''
  · exact h h'

theorem colon_not_mem_hours2 (t : Time) : ':' ∉ (hours2 t).data :=
  colon_not_mem_padStart _ _ (colon_not_mem_numToString _)

theorem colon_not_mem_minutes2 (t : Time) : ':' ∉ (minutes2 t).data :=
  colon_not_mem_padStart _ _ (colon_not_mem_numToString _)

theorem colon_not_mem_seconds2 (t : Time) : ':' ∉ (seconds2 t).data := by
  simp only [seconds2]
  split
  · exact colon_not_mem_numToString _
  · rw [strData_mk]
    intro hc
    rcases List.mem_append.mp hc with h' | h'
    · apply colon_not_mem_padStart ⟨(numToString t.seconds).data.takeWhile Char.isDigit⟩ 2 _ h'
      rw [strData_mk]
      intro hc'
      exact colon_not_mem_numToString t.seconds
        ((List.takeWhile_sublist Char.isDigit).subset hc')
    · exact colon_not_mem_numToString t.seconds (List.drop_subset _ _ h')

/-! ### More string algebra -/

theorem strData_empty : ("" : String).data = [] := rfl

theorem strAppend_assoc (a b c : String) : a ++ b ++ c = a ++ (b ++ c) :=
  String.ext (by simp [strData_append])

theorem strAppend_empty (a : String) : a ++ "" = a :=
  String.ext (by simp [strData_append, strData_empty])

theorem strEmpty_append (a : String) : "" ++ a = a :=
  String.ext (by simp [strData_append, strData_empty])

/-! ### Bounds and integrality for the JS remainder -/

theorem jsMod_nonneg_bounds (a b : ℚ) (hb : 0 < b) (ha : 0 ≤ a) :
    0 ≤ jsMod a b ∧ jsMod a b < b := by
  have hq : 0 ≤ a / b := div_nonneg ha hb.le
  rw [jsMod, truncQ, if_neg (not_lt.mpr hq)]
  have hba : b * (a / b) = a := by field_simp
  constructor
  · have h2 : b * ((⌊a / b⌋ : ℚ)) ≤ b * (a / b) :=
      mul_le_mul_of_nonneg_left (Int.floor_le _) hb.le
    linarith
  · have h2 : b * (a / b) < b * ((⌊a / b⌋ : ℚ) + 1) :=
      mul_lt_mul_of_pos_left (Int.lt_floor_add_one _) hb
    nlinarith

theorem jsMod_neg_bounds (a b : ℚ) (hb : 0 < b) (ha : a < 0) :
    -b < jsMod a b ∧ jsMod a b ≤ 0 := by
  have hq : a / b < 0 := div_neg_of_neg_of_pos ha hb
  rw [jsMod, truncQ, if_pos hq]
  have hba : b * (a / b) = a := by field_simp
  constructor
  · have h2 : b * ((⌈a / b⌉ : ℚ)) < b * (a / b + 1) :=
      mul_lt_mul_of_pos_left (Int.ceil_lt_add_one _) hb
    nlinarith
  · have h2 : b * (a / b) ≤ b * ((⌈a / b⌉ : ℚ)) :=
      mul_le_mul_of_nonneg_left (Int.le_ceil _) hb.le
    linarith

theorem jsMod_bounds (a b : ℚ) (hb : 0 < b) : -b < jsMod a b ∧ jsMod a b < b := by
  rcases lt_or_le a 0 with ha | ha
  · obtain ⟨h1, h2⟩ := jsMod_neg_bounds a b hb ha
    exact ⟨h1, lt_of_le_of_lt h2 hb⟩
  · obtain ⟨h1, h2⟩ := jsMod_nonneg_bounds a b hb ha
    exact ⟨lt_of_lt_of_le (by linarith) h1, h2⟩

theorem jsMod_intCast (n : ℤ) :
    jsMod (n : ℚ) 12 = ((n - 12 * truncQ ((n : ℚ) / 12) : ℤ) : ℚ) := by
  rw [jsMod]
  push_cast
  ring

/-! ### The spec-side template rendering formula -/

/-- Modelled from the spec: the rendering formula for `timeTemplate`,
`fragments[0] + formatters[0](time) + fragments[1] + … + fragments[last]`,
where each missing trailing formatter contributes the empty string.  Used to
compare `timeTemplate` against the specified concatenation order. -/
def specTemplateConcat : List String → List TimeFormatter → Time → String
  | [], _, _ => ""
  | s :: ss, [], time => s ++ specTemplateConcat ss [] time
  | s :: ss, f :: fs, time => s ++ f time ++ specTemplateConcat ss fs time

theorem timeTemplate_render (texts : List String) (fs : List TimeFormatter) (n : ℕ) (t : Time) :
    joinAll (flatMapIdx (fun text i => [text, optCall (fs.map some) i t]) texts n)
      = specTemplateConcat texts (fs.drop n) t := by
  induction texts generalizing n with
  | nil => rfl
  | cons s ss ih =>
    rw [flatMapIdx, joinAll_append, joinAll_pair, ih]
    cases hdrop : fs.drop n with
    | nil =>
      have hlen : fs.length ≤ n := List.drop_eq_nil_iff.mp hdrop
      have hnone : (fs.map some)[n]? = none := List.getElem?_eq_none (by simpa using hlen)
      have hoc : optCall (fs.map some) n t = "" := by simp [optCall, hnone]
      have hd1 : fs.drop (n + 1) = [] := List.drop_eq_nil_iff.mpr (by omega)
      rw [hoc, hd1, strAppend_empty]
      simp [specTemplateConcat]
    | cons f rest =>
      have hget : fs[n]? = some f := by
        have h0 := List.getElem?_drop fs n 0
        rw [hdrop] at h0
        simpa using h0.symm
      have hoc : optCall (fs.map some) n t = f t := by
        simp [optCall, List.getElem?_map, hget]
      have hd1 : fs.drop (n + 1) = rest := by
        have h1 := List.tail_drop fs n
        rw [hdrop] at h1
        simpa using h1.symm
      rw [hoc, hd1]
      simp [specTemplateConcat]

/-! ### Decomposition of the `iso8601` output into its six slots -/

theorem iso8601_default_eval (t : Time) :
    iso8601 {} t = "T" ++ (hours2 t ++ (":" ++ (minutes2 t ++ (":" ++ seconds2 t)))) := by
  apply String.ext
  simp [iso8601, timeTemplate, flatMapIdx, optCall, joinAll, strData_append]

theorem iso8601_extended_eval (t : Time) :
    iso8601 {format := some "extended"} t
      = "T" ++ (hours2 t ++ (":" ++ (minutes2 t ++ (":" ++ seconds2 t)))) := by
  apply String.ext
  simp [iso8601, timeTemplate, flatMapIdx, optCall, joinAll, strData_append]

theorem iso8601_basic_eval (t : Time) :
    iso8601 {format := some "basic"} t = "T" ++ (hours2 t ++ (minutes2 t ++ seconds2 t)) := by
  apply String.ext
  simp [iso8601, timeTemplate, flatMapIdx, optCall, joinAll, strData_append]

theorem iso8601_secondsRound_eval (t : Time) :
    iso8601 {round := some "seconds"} t
      = "T" ++ (hours2 t ++ (":" ++ (minutes2 t ++ (":" ++ floorSeconds2 t)))) := by
  apply String.ext
  simp [iso8601, timeTemplate, flatMapIdx, optCall, joinAll, strData_append]

theorem iso8601_msRound_eval (t : Time) :
    iso8601 {round := some "ms"} t
      = "T" ++ (hours2 t ++ (":" ++ (minutes2 t ++ (":" ++ secondsMs t)))) := by
  apply String.ext
  simp [iso8601, timeTemplate, flatMapIdx, optCall, joinAll, strData_append]

theorem humanIso8601_eval (t : Time) :
    humanIso8601 t = hours2 t ++ (":" ++ (minutes2 t ++ (":" ++ floorSeconds2 t))) := by
  apply String.ext
  simp [humanIso8601, iso8601, timeTemplate, flatMapIdx, optCall, joinAll, strData_append]

theorem iso8601_unknown_format_eval (s : String) (h1 : s ≠ "basic") (h2 : s ≠ "extended")
    (t : Time) :
    iso8601 {format := some s} t = "T" ++ (hours2 t ++ (minutes2 t ++ seconds2 t)) := by
  apply String.ext
  simp [iso8601, timeTemplate, flatMapIdx, optCall, joinAll, strData_append, h1, h2]

theorem iso8601_unknown_round_eval (r : String) (h1 : r ≠ "none") (h2 : r ≠ "seconds")
    (h3 : r ≠ "ms") (t : Time) :
    iso8601 {round := some r} t = "T" ++ (hours2 t ++ (":" ++ (minutes2 t ++ ":"))) := by
  apply String.ext
  simp [iso8601, timeTemplate, flatMapIdx, optCall, joinAll, strData_append, h1, h2, h3]

/-! ### Evaluation of the field formatters at concrete inputs -/

theorem hours2_eval (t : Time) (n : ℕ) (h : t.hours = (n : ℚ)) :
    hours2 t = padStart (natRepr n) 2 '0' := by
  simp only [hours2]
  rw [numToString_eq_natRepr _ n h]

theorem minutes2_eval (t : Time) (n : ℕ) (h : t.minutes = (n : ℚ)) :
    minutes2 t = padStart (natRepr n) 2 '0' := by
  simp only [minutes2]
  rw [numToString_eq_natRepr _ n h]

theorem floorSeconds2_eval (t : Time) (n : ℕ) (h : ⌊t.seconds⌋ = (n : ℤ)) :
    floorSeconds2 t = padStart (natRepr n) 2 '0' := by
  simp only [floorSeconds2, mathFloor]
  rw [numToString_eq_natRepr _ n (by exact_mod_cast congrArg (fun z : ℤ => (z : ℚ)) h)]

theorem secondsMs_eval (t : Time) (n : ℕ) (h : ⌊t.seconds * 1000⌋ = (n : ℤ)) :
    secondsMs t = ⟨(padStart (natRepr n) 5 '0').data.take 2⟩ ++ "."
      ++ ⟨(padStart (natRepr n) 5 '0').data.drop 2⟩ := by
  simp only [secondsMs, mathFloor]
  rw [numToString_eq_natRepr _ n (by exact_mod_cast congrArg (fun z : ℤ => (z : ℚ)) h)]

/-! ### Further evaluation helpers -/

theorem jsMod_eval_floor (a b r : ℚ) (h0 : ¬ a / b < 0) (hr : a - b * ⌊a / b⌋ = r) :
    jsMod a b = r := by rw [jsMod, truncQ, if_neg h0, hr]

theorem jsMod_eval_ceil (a b r : ℚ) (h0 : a / b < 0) (hr : a - b * ⌈a / b⌉ = r) :
    jsMod a b = r := by rw [jsMod, truncQ, if_pos h0, hr]

theorem hours12_pair_eval (h : ℚ) (n : ℕ) (heq : jsMod (12 + jsMod h 12) 12 = (n : ℚ)) :
    hours12 {hours := h} = natRepr n ∧ hours122 {hours := h} = padStart (natRepr n) 2 '0' := by
  constructor
  · simp only [hours12]
    rw [heq]
    exact numToString_eq_natRepr _ n rfl
  · simp only [hours122]
    rw [heq, numToString_eq_natRepr _ n rfl]

theorem filter_ne_colon_shape (H M S : List Char)
    (hH : ':' ∉ H) (hM : ':' ∉ M) (hS : ':' ∉ S) :
    List.filter (fun c => decide (c ≠ ':')) ('T' :: (H ++ (':' :: (M ++ (':' :: S)))))
      = 'T' :: (H ++ (M ++ S)) := by
  have fH : List.filter (fun c => !decide (c = ':')) H = H :=
    List.filter_eq_self.mpr fun a ha => by
      simp
      exact fun heq => hH (heq ▸ ha)
  have fM : List.filter (fun c => !decide (c = ':')) M = M :=
    List.filter_eq_self.mpr fun a ha => by
      simp
      exact fun heq => hM (heq ▸ ha)
  have fS : List.filter (fun c => !decide (c = ':')) S = S :=
    List.filter_eq_self.mpr fun a ha => by
      simp
      exact fun heq => hS (heq ▸ ha)
  simp [List.filter_cons, List.filter_append, fH, fM, fS]

theorem natReprAux_length {k fuel n : ℕ} (h10 : 10 ^ k ≤ n) (hfuel : n ≤ fuel) :
    k + 1 ≤ (natReprAux fuel n).length := by
  induction k generalizing fuel n with
  | zero =>
    have hn : n ≠ 0 := by simp at h10; omega
    obtain ⟨fuel', rfl⟩ : ∃ f', fuel = f' + 1 := ⟨fuel - 1, by omega⟩
    rw [natReprAux, if_neg hn]
    simp
  | succ k ih =>
    have hpow : 1 ≤ 10 ^ (k + 1) := Nat.one_le_pow _ _ (by norm_num)
    have hn : n ≠ 0 := by omega
    obtain ⟨fuel', rfl⟩ : ∃ f', fuel = f' + 1 := ⟨fuel - 1, by omega⟩
    rw [natReprAux, if_neg hn]
    have h1 : 10 ^ k ≤ n / 10 := by
      rw [Nat.le_div_iff_mul_le (by norm_num)]
      calc 10 ^ k * 10 = 10 ^ (k + 1) := by ring
      _ ≤ n := h10
    have h2 : n / 10 ≤ fuel' := by
      have : n / 10 < n := Nat.div_lt_self (by omega) (by norm_num)
      omega
    have h3 := ih h1 h2
    simp [List.length_append]
    omega

theorem natRepr_data (n : ℕ) (h : n ≠ 0) : (natRepr n).data = natReprAux n n := by
  rw [natRepr, if_neg h]

theorem natRepr_length {k n : ℕ} (h : 10 ^ k ≤ n) : k + 1 ≤ (natRepr n).data.length := by
  have hpow : 1 ≤ 10 ^ k := Nat.one_le_pow _ _ (by norm_num)
  have hn : n ≠ 0 := by omega
  rw [natRepr_data n hn]
  exact natReprAux_length h le_rfl

theorem padStart_of_le (s : String) (n : ℕ) (c : Char) (h : n ≤ s.data.length) :
    padStart s n c = s := by
  have h1 : n - s.length = 0 := Nat.sub_eq_zero_of_le h
  apply String.ext
  simp [padStart, Nat.sub_eq_zero_of_le h, h1]

theorem numToString_floor_eval (q : ℚ) (h : 0 ≤ ⌊q⌋) :
    numToString (mathFloor q) = natRepr (⌊q⌋).toNat := by
  rw [mathFloor]
  exact numToString_eq_natRepr _ _ (by exact_mod_cast (Int.toNat_of_nonneg h).symm)

/-! ### The claims -/

/-- C1 (counterexample): calling `iso8601` with `format` set to the
out-of-enum value `"invalid"` does not raise any error — neither at
construction nor at render time.  The lookup yields `undefined` (here `none`)
and the returned formatter silently renders the separator slots as the empty
string, producing `"T010203"` on `{hours: 1, minutes: 2, seconds: 3}`, the
same output as `format: "basic"`.  This refutes the claim that an
out-of-enum option value raises a configuration error at construction time. -/
theorem claim1_iso8601_config_error_counterexample :
    iso8601 {format := some "invalid"} {hours := 1, minutes := 2, seconds := 3} = "T010203" := by
  rw [iso8601_unknown_format_eval "invalid" (by decide) (by decide),
    hours2_eval _ 1 (by norm_num), minutes2_eval _ 2 (by norm_num)]
  have hs : seconds2 {hours := 1, minutes := 2, seconds := 3} = "03" := by
    simp only [seconds2]
    rw [numToString_eq_natRepr _ 3 (by norm_num)]
    decide
  rw [hs]
  decide

/-- C1 (amended): calling `iso8601` with an option value outside its
enumerated set raises no error at all.  The object lookup yields `undefined`
(`none`), which the returned formatter renders as the empty string: an
unknown `format` behaves exactly like `"basic"` (no separators), and an
unknown `round` produces an output with an empty seconds field,
`"T" ++ HH ++ ":" ++ MM ++ ":"`. -/
theorem claim1_iso8601_unknown_options :
    (∀ (s : String) (t : Time), s ≠ "basic" → s ≠ "extended" →
      iso8601 {format := some s} t = iso8601 {format := some "basic"} t)
    ∧ (∀ (r : String) (t : Time), r ≠ "none" → r ≠ "seconds" → r ≠ "ms" →
      iso8601 {round := some r} t = "T" ++ (hours2 t ++ (":" ++ (minutes2 t ++ ":")))) := by
  constructor
  · intro s t h1 h2
    rw [iso8601_unknown_format_eval s h1 h2, iso8601_basic_eval]
  · intro r t h1 h2 h3
    exact iso8601_unknown_round_eval r h1 h2 h3 t

/-- Witness for C1 (amended) at the concrete out-of-enum value `"bogus"`. -/
theorem claim1_iso8601_unknown_options_witness :
    ("bogus" : String) ≠ "basic" ∧ ("bogus" : String) ≠ "extended"
    ∧ iso8601 {format := some "bogus"} {hours := 1, minutes := 2, seconds := 3}
        = iso8601 {format := some "basic"} {hours := 1, minutes := 2, seconds := 3} :=
  ⟨by decide, by decide,
    claim1_iso8601_unknown_options.1 "bogus" _ (by decide) (by decide)⟩

/-- C2: for every seconds value `s`, `secondsMs {seconds := s}` is
`floor(s * 1000)` rendered as a decimal string, zero-padded to minimum width
5, and split after the first two characters by a literal `"."`; the rounding
is truncation toward negative infinity at millisecond granularity, never
rounding to nearest: `secondsMs {seconds := 1.0018} = "01.001"`,
`secondsMs {seconds := 0.001} = "00.001"`, `secondsMs {seconds := 1} =
"01.000"` and `secondsMs {seconds := 22.0018} = "22.001"`. -/
theorem claim2_secondsMs_truncation :
    (∀ s : ℚ, secondsMs {seconds := s}
        = ⟨(padStart (numToString (mathFloor (s * 1000))) 5 '0').data.take 2⟩ ++ "."
          ++ ⟨(padStart (numToString (mathFloor (s * 1000))) 5 '0').data.drop 2⟩)
    ∧ secondsMs {seconds := 1.0018} = "01.001"
    ∧ secondsMs {seconds := 0.001} = "00.001"
    ∧ secondsMs {seconds := 1} = "01.000"
    ∧ secondsMs {seconds := 22.0018} = "22.001" := by
  refine ⟨fun s => rfl, ?_, ?_, ?_, ?_⟩
  · rw [secondsMs_eval _ 1001 (by norm_num)]
    decide
  · rw [secondsMs_eval _ 1 (by norm_num)]
    decide
  · rw [secondsMs_eval _ 1000 (by norm_num)]
    decide
  · rw [secondsMs_eval _ 22001 (by norm_num)]
    decide

/-- C3: for every time value `t`, `iso8601 {} t` is exactly `"T"` followed by
`iso8601 {leadingT := false} t`; equivalently, the `leadingT := false` output
is the default output with its leading `"T"` character removed, and nothing
else differs. -/
theorem claim3_leadingT_strips_T (t : Time) :
    iso8601 {} t = "T" ++ iso8601 {leadingT := some false} t
    ∧ (iso8601 {leadingT := some false} t).data = (iso8601 {} t).data.tail :=
  ⟨rfl, rfl⟩

/-- C4: for every time value `t`, `iso8601 {format := "basic"} t` equals
`iso8601 {format := "extended"} t` with every `':'` character removed (the
field renderings themselves never contain a colon, so exactly the two
separators disappear and nothing else differs). -/
theorem claim4_basic_strips_colons (t : Time) :
    iso8601 {format := some "basic"} t
      = ⟨(iso8601 {format := some "extended"} t).data.filter (fun c => decide (c ≠ ':'))⟩ := by
  have hb : (iso8601 {format := some "basic"} t).data
      = 'T' :: ((hours2 t).data ++ ((minutes2 t).data ++ (seconds2 t).data)) := by
    rw [iso8601_basic_eval t]
    simp [strData_append]
  have he : (iso8601 {format := some "extended"} t).data
      = 'T' :: ((hours2 t).data ++ (':' :: ((minutes2 t).data ++ (':' :: (seconds2 t).data)))) := by
    rw [iso8601_extended_eval t]
    simp [strData_append]
  apply String.ext
  rw [strData_mk, hb, he]
  exact (filter_ne_colon_shape _ _ _ (colon_not_mem_hours2 t) (colon_not_mem_minutes2 t)
    (colon_not_mem_seconds2 t)).symm

/-- C5: `iso8601 {}` on the zeroed time value yields `"T00:00:00"`;
`iso8601 {round := "seconds"}` on `{hours: 11, minutes: 58, seconds:
27.63981}` yields `"T11:58:27"`; and `iso8601 {round := "ms"}` on the same
input yields `"T11:58:27.639"`. -/
theorem claim5_iso8601_examples :
    iso8601 {} {hours := 0, minutes := 0, seconds := 0} = "T00:00:00"
    ∧ iso8601 {round := some "seconds"} {hours := 11, minutes := 58, seconds := 27.63981}
        = "T11:58:27"
    ∧ iso8601 {round := some "ms"} {hours := 11, minutes := 58, seconds := 27.63981}
        = "T11:58:27.639" := by
  refine ⟨?_, ?_, ?_⟩
  · rw [iso8601_default_eval, hours2_eval _ 0 (by norm_num), minutes2_eval _ 0 (by norm_num)]
    have hs : seconds2 {hours := 0, minutes := 0, seconds := 0} = "00" := by
      simp only [seconds2]
      rw [numToString_eq_natRepr _ 0 (by norm_num)]
      decide
    rw [hs]
    decide
  · rw [iso8601_secondsRound_eval, hours2_eval _ 11 (by norm_num),
      minutes2_eval _ 58 (by norm_num), floorSeconds2_eval _ 27 (by norm_num)]
    decide
  · rw [iso8601_msRound_eval, hours2_eval _ 11 (by norm_num),
      minutes2_eval _ 58 (by norm_num), secondsMs_eval _ 27639 (by norm_num)]
    decide

/-- C6: for every hours value (rational, including negative), `hours12`
renders the decimal string of `(12 + hours % 12) % 12` and `hours122` the
same left-padded to 2 characters; the value lies in `[0, 12)` and is an
integer at most 11 for integer input.  Hour 0 and hour 12 both map to
`"0"`/`"00"`, hour 13 to `"1"`/`"01"`, hour 23 to `"11"`, and hour -1
(negative input) to `"11"`. -/
theorem claim6_hours12_range :
    (∀ h : ℚ,
      hours12 {hours := h} = numToString (jsMod (12 + jsMod h 12) 12)
      ∧ hours122 {hours := h} = padStart (numToString (jsMod (12 + jsMod h 12) 12)) 2 '0'
      ∧ 0 ≤ jsMod (12 + jsMod h 12) 12 ∧ jsMod (12 + jsMod h 12) 12 < 12)
    ∧ (∀ n : ℤ, ∃ m : ℕ, m ≤ 11 ∧ jsMod (12 + jsMod (n : ℚ) 12) 12 = (m : ℚ))
    ∧ hours12 {hours := 0} = "0" ∧ hours122 {hours := 0} = "00"
    ∧ hours12 {hours := 12} = "0" ∧ hours122 {hours := 12} = "00"
    ∧ hours12 {hours := 13} = "1" ∧ hours122 {hours := 13} = "01"
    ∧ hours12 {hours := 23} = "11" ∧ hours122 {hours := 23} = "11"
    ∧ hours12 {hours := -1} = "11" := by
  have e0 := hours12_pair_eval 0 0 (by
    rw [jsMod_eval_floor 0 12 0 (by norm_num) (by norm_num),
      show (12 + (0 : ℚ)) = 12 from by norm_num,
      jsMod_eval_floor 12 12 0 (by norm_num) (by norm_num)]
    norm_num)
  have e12 := hours12_pair_eval 12 0 (by
    rw [jsMod_eval_floor 12 12 0 (by norm_num) (by norm_num),
      show (12 + (0 : ℚ)) = 12 from by norm_num,
      jsMod_eval_floor 12 12 0 (by norm_num) (by norm_num)]
    norm_num)
  have e13 := hours12_pair_eval 13 1 (by
    rw [jsMod_eval_floor 13 12 1 (by norm_num) (by norm_num),
      show (12 + (1 : ℚ)) = 13 from by norm_num,
      jsMod_eval_floor 13 12 1 (by norm_num) (by norm_num)]
    norm_num)
  have e23 := hours12_pair_eval 23 11 (by
    rw [jsMod_eval_floor 23 12 11 (by norm_num) (by norm_num),
      show (12 + (11 : ℚ)) = 23 from by norm_num,
      jsMod_eval_floor 23 12 11 (by norm_num) (by norm_num)]
    norm_num)
  have en1 := hours12_pair_eval (-1) 11 (by
    rw [jsMod_eval_ceil (-1) 12 (-1) (by norm_num) (by norm_num),
      show (12 + (-1 : ℚ)) = 11 from by norm_num,
      jsMod_eval_floor 11 12 11 (by norm_num) (by norm_num)]
    norm_num)
  refine ⟨?_, ?_, e0.1.trans (by decide), e0.2.trans (by decide),
    e12.1.trans (by decide), e12.2.trans (by decide),
    e13.1.trans (by decide), e13.2.trans (by decide),
    e23.1.trans (by decide), e23.2.trans (by decide),
    en1.1.trans (by decide)⟩
  · intro h
    have hb1 := jsMod_bounds h 12 (by norm_num)
    have hpos : (0 : ℚ) ≤ 12 + jsMod h 12 := by linarith [hb1.1]
    have hb2 := jsMod_nonneg_bounds (12 + jsMod h 12) 12 (by norm_num) hpos
    exact ⟨rfl, rfl, hb2.1, hb2.2⟩
  · intro n
    obtain ⟨k1, hk1⟩ : ∃ k : ℤ, jsMod (n : ℚ) 12 = (k : ℚ) := ⟨_, jsMod_intCast n⟩
    have h12 : (12 : ℚ) + (k1 : ℚ) = ((12 + k1 : ℤ) : ℚ) := by push_cast; ring
    obtain ⟨k2, hk2⟩ : ∃ k : ℤ, jsMod (((12 + k1 : ℤ) : ℚ)) 12 = (k : ℚ) := ⟨_, jsMod_intCast _⟩
    have hpos : (0 : ℚ) ≤ 12 + jsMod (n : ℚ) 12 := by
      have := (jsMod_bounds (n : ℚ) 12 (by norm_num)).1
      linarith
    have hb := jsMod_nonneg_bounds (12 + jsMod (n : ℚ) 12) 12 (by norm_num) hpos
    have hval : jsMod (12 + jsMod (n : ℚ) 12) 12 = (k2 : ℚ) := by
      rw [hk1, h12, hk2]
    rw [hval] at hb
    have h0 : (0 : ℤ) ≤ k2 := by exact_mod_cast hb.1
    have h11 : k2 < 12 := by exact_mod_cast hb.2
    refine ⟨k2.toNat, by omega, ?_⟩
    rw [hval]
    exact_mod_cast congrArg (fun z : ℤ => (z : ℚ)) (Int.toNat_of_nonneg h0).symm

/-- C7: for every non-empty fragment sequence and every formatter sequence of
length at most one fewer, the formatter built by `timeTemplate` concatenates
`fragments[0] ++ formatters[0](time) ++ fragments[1] ++ … ++ fragments[last]`
in order, a missing trailing formatter contributing the empty string; no
error is raised and no placeholder marker is inserted. -/
theorem claim7_timeTemplate_concat (texts : List String) (fs : List TimeFormatter) (t : Time)
    (_hne : texts ≠ []) (_hlen : fs.length ≤ texts.length - 1) :
    timeTemplate texts (fs.map some) t = specTemplateConcat texts fs t := by
  have h := timeTemplate_render texts fs 0 t
  simpa [timeTemplate] using h

/-- Witness for C7 with three fragments and a single formatter. -/
theorem claim7_timeTemplate_concat_witness :
    (["a", "b", "c"] : List String) ≠ []
    ∧ ([hours] : List TimeFormatter).length ≤ (["a", "b", "c"] : List String).length - 1
    ∧ timeTemplate ["a", "b", "c"] ([hours].map some) {hours := 5}
        = specTemplateConcat ["a", "b", "c"] [hours] {hours := 5} :=
  ⟨by decide, by decide,
    claim7_timeTemplate_concat ["a", "b", "c"] [hours] {hours := 5} (by decide) (by decide)⟩

/-- C8: `humanIso8601` is exactly `iso8601 {round := "seconds", leadingT :=
false}` — `HH:MM:SS` with colon separators, whole-second truncation and no
leading `"T"` — and `humanIso8601 {hours: 13, minutes: 5, seconds: 30}` is
`"13:05:30"`. -/
theorem claim8_humanIso8601_equiv :
    (∀ t : Time, humanIso8601 t = iso8601 {round := some "seconds", leadingT := some false} t)
    ∧ (∀ t : Time, humanIso8601 t = hours2 t ++ (":" ++ (minutes2 t ++ (":" ++ floorSeconds2 t))))
    ∧ humanIso8601 {hours := 13, minutes := 5, seconds := 30} = "13:05:30" := by
  refine ⟨fun _ => rfl, humanIso8601_eval, ?_⟩
  rw [humanIso8601_eval, hours2_eval _ 13 (by norm_num), minutes2_eval _ 5 (by norm_num),
    floorSeconds2_eval _ 30 (by norm_num)]
  decide

/-- C9: for `s ≥ 100` the decimal string of `floor(s * 1000)` has more than
5 characters, so the width-5 padding is a no-op; `secondsMs` returns the
first two characters, a `"."`, and all remaining characters — more than
three of them — and the part before the dot is not the whole-seconds value
(`floorSeconds`); e.g. `secondsMs {seconds := 100} = "10.0000"`. -/
theorem claim9_secondsMs_large (s : ℚ) (h : 100 ≤ s) :
    5 < (numToString (mathFloor (s * 1000))).data.length
    ∧ padStart (numToString (mathFloor (s * 1000))) 5 '0' = numToString (mathFloor (s * 1000))
    ∧ secondsMs {seconds := s}
        = ⟨(numToString (mathFloor (s * 1000))).data.take 2⟩ ++ "."
          ++ ⟨(numToString (mathFloor (s * 1000))).data.drop 2⟩
    ∧ 4 ≤ ((numToString (mathFloor (s * 1000))).data.drop 2).length
    ∧ (⟨(numToString (mathFloor (s * 1000))).data.take 2⟩ : String) ≠ floorSeconds {seconds := s}
    ∧ secondsMs {seconds := (100 : ℚ)} = "10.0000" := by
  have hf : (100000 : ℤ) ≤ ⌊s * 1000⌋ := Int.le_floor.mpr (by push_cast; linarith)
  have hf0 : (0 : ℤ) ≤ ⌊s * 1000⌋ := by omega
  have hN : 10 ^ 5 ≤ (⌊s * 1000⌋).toNat := by omega
  have hstr := numToString_floor_eval (s * 1000) hf0
  have hlen : 6 ≤ (numToString (mathFloor (s * 1000))).data.length := by
    rw [hstr]
    exact natRepr_length hN
  have hpad : padStart (numToString (mathFloor (s * 1000))) 5 '0'
      = numToString (mathFloor (s * 1000)) := padStart_of_le _ _ _ (by omega)
  have hfs : (3 : ℕ) ≤ (floorSeconds {seconds := s}).data.length := by
    have hf2 : (100 : ℤ) ≤ ⌊s⌋ := Int.le_floor.mpr (by push_cast; linarith)
    have hf20 : (0 : ℤ) ≤ ⌊s⌋ := by omega
    have hN2 : 10 ^ 2 ≤ (⌊s⌋).toNat := by omega
    show (3 : ℕ) ≤ (numToString (mathFloor s)).data.length
    rw [numToString_floor_eval s hf20]
    exact natRepr_length hN2
  refine ⟨by omega, hpad, ?_, ?_, ?_, ?_⟩
  · simp only [secondsMs]
    rw [hpad]
  · rw [List.length_drop]
    omega
  · have hlen2 : (numToString (mathFloor (s * 1000))).data.length
        = (numToString (mathFloor (s * 1000))).length := rfl
    have htake : ((⟨(numToString (mathFloor (s * 1000))).data.take 2⟩ : String)).data.length = 2 := by
      simp [strData_mk, List.length_take]
      omega
    intro heq
    rw [heq] at htake
    omega
  · rw [secondsMs_eval _ 100000 (by norm_num)]
    decide

/-- Witness for C9 at the concrete input `s = 100`. -/
theorem claim9_secondsMs_large_witness :
    (100 : ℚ) ≤ 100 ∧ 5 < (numToString (mathFloor ((100 : ℚ) * 1000))).data.length :=
  ⟨by norm_num, (claim9_secondsMs_large 100 (by norm_num)).1⟩

/-- C10: for every negative seconds value, `seconds2` returns exactly the
decimal string of the value with no zero-padding applied, because the
rendered string begins with `'-'` rather than a digit, so the leading-digit
replacement does not fire; e.g. `seconds2 {seconds := -5} = "-5"`. -/
theorem claim10_seconds2_negative (s : ℚ) (h : s < 0) :
    seconds2 {seconds := s} = numToString s
    ∧ (numToString s).data.head? = some '-'
    ∧ seconds2 {seconds := (-5 : ℚ)} = "-5" := by
  have hd : (numToString s).data = '-' :: (numToStringNonneg (-s)).data := by
    rw [numToString, if_pos h, strData_append]
    rfl
  refine ⟨?_, by rw [hd]; rfl, ?_⟩
  · simp only [seconds2]
    rw [hd]
    simp [List.takeWhile_cons, show Char.isDigit '-' = false from rfl]
  · simp only [seconds2]
    rw [numToString_eq_neg_natRepr _ 5 (by norm_num) (by norm_num)]
    decide

/-- Witness for C10 at the concrete input `s = -5`. -/
theorem claim10_seconds2_negative_witness :
    (-5 : ℚ) < 0 ∧ seconds2 {seconds := (-5 : ℚ)} = "-5" :=
  ⟨by norm_num, (claim10_seconds2_negative (-5) (by norm_num)).2.2⟩

end FormatTime
